import Mathlib

/-!
Verification of the llama-tui process-supervision core.

A shallow embedding of the repository's Go sources (`main.go` constants,
`state.go` model record, `update.go` message handlers, `server.go` process
supervision helpers).  Strings are modelled as Lean `String`/`List Char`
(Go byte counts become character counts), Go `error` values as an inductive
`GoErr` with `nil` as `Option.none`, channels as explicit buffer/closed
records, and the goroutines touching a channel as small step machines run
over explicit schedules (the interleavings the Go memory model allows for
these programs).
-/

namespace LlamaTui

/-- Constants from `main.go` (`logBufferSoftLimitCharacters = 2_000_000`,
`defaultPort = "8080"`). -/
def logBufferSoftLimitCharacters : Nat := 2000000

/-- Default port string from `main.go`. -/
def defaultPort : String := "8080"

/-- Capacity of the log-line channel, `server.go:97`:
`logChan := make(chan string, 1024)`. -/
def logChanCapacity : Nat := 1024

/-- Values of Go's `error` interface as this program produces them.
`context.Canceled` is the cancellation sentinel; `exitStatus c` models
`*exec.ExitError` for an exit with code `c`; `signalErr s` models
`*exec.ExitError` for a signal-terminated process (`"signal: terminated"`
and the like); `otherErr` any other error. A Go `nil` error is `Option.none`
of this type. -/
inductive GoErr where
  | canceled
  | exitStatus (code : Nat)
  | signalErr (sig : String)
  | otherErr (msg : String)
deriving DecidableEq, Repr

/-- `errors.Is(err, context.Canceled)` for the unwrapped error values above:
only the sentinel itself matches (an `*exec.ExitError` does not wrap
`context.Canceled`). -/
def errorsIsCanceled : Option GoErr → Bool
  | some GoErr.canceled => true
  | _ => false

/-- `err.Error()` / `fmt.Sprintf("%v", err)` for the modelled error values. -/
def goErrString : GoErr → String
  | GoErr.canceled => "context canceled"
  | GoErr.exitStatus c => "exit status " ++ toString c
  | GoErr.signalErr s => "signal: " ++ s
  | GoErr.otherErr s => s

/-- `Char.toLower`-based model of Go `strings.ToLower` (ASCII case mapping;
the only letters the code searches for are ASCII). -/
def goToLower (s : String) : String := ⟨s.data.map Char.toLower⟩

/-- Occurrence of `sub` as a contiguous subsequence of `l`
(Go `strings.Contains` on the underlying characters). -/
def hasSubSeq (sub : List Char) : List Char → Bool
  | [] => sub.isEmpty
  | c :: rest => sub.isPrefixOf (c :: rest) || hasSubSeq sub rest

/-- Go `strings.Contains s sub`. -/
def goContainsSub (s sub : String) : Bool := hasSubSeq sub.data s.data

/-- ANSI reset sequence emitted by lipgloss after a styled string. -/
def ansiReset : String := "\x1b[0m"

/-- Foreground sequence of `styles.logError` (`#f38ba8`). -/
def logErrorPre : String := "\x1b[38;2;243;139;168m"

/-- Foreground sequence of `styles.logWarn` (`#f9e2af`). -/
def logWarnPre : String := "\x1b[38;2;249;226;175m"

/-- Foreground sequence of `styles.logInfo` (`#89b4fa`). -/
def logInfoPre : String := "\x1b[38;2;137;180;250m"

/-- `view.go:42` `colorLog`: lower-case the line, wrap it in the error, warn
or info style when it mentions one of those words, else pass it through.
The lipgloss `Render` calls are modelled as the truecolor ANSI wrapping they
produce on a color terminal. -/
def colorLog (line : String) : String :=
  let lower := goToLower line
  if goContainsSub lower "error" then logErrorPre ++ line ++ ansiReset
  else if goContainsSub lower "warn" then logWarnPre ++ line ++ ansiReset
  else if goContainsSub lower "info" then logInfoPre ++ line ++ ansiReset
  else line

/-- `modelItem` from `main.go`: display name and absolute path of a model. -/
structure ModelItem where
  name : String
  path : String
deriving DecidableEq, Repr

/-- Handle to the spawned `*exec.Cmd`: after a successful `cmd.Start()` the
`Process` field is non-nil; `processPresent` records that nil-check. -/
structure CmdHandle where
  processPresent : Bool
deriving DecidableEq, Repr

/-- The `tea.Cmd` values the modelled `Update` branches return (`none` for
Go's nil command). `batchWaitLogExit` stands for
`tea.Batch(m.waitForLogLine(), m.waitForExit())`. -/
inductive TeaCmd where
  | stopServer
  | startServer (item : ModelItem) (port : String)
  | waitLogLine
  | waitExit
  | batchWaitLogExit
  | quit
deriving DecidableEq, Repr

/-- The `appModel` record of `state.go`, restricted to the fields the
supervised-process core reads or writes.  Pure-view widgets are projected to
the data the handlers touch: the models list to its selected item, the port
text input to its value and focus flag, the logs viewport to its content.
Pointer fields (`logFile`, `logChan`, `exitChan`, `serverCancel`) are
modelled by their nil-ness; `serverCmd` keeps the nested `Process` nil-check.
`logBuffer` is the `bytes.Buffer` content as a character list. -/
structure AppModel where
  statusLineText : String
  homeDir : String
  barnDir : String
  logsDir : String
  logToFileEnabled : Bool
  logFileOpen : Bool
  logFilePath : String
  logChanPresent : Bool
  exitChanPresent : Bool
  serverCmd : Option CmdHandle
  serverCancelPresent : Bool
  serverRunning : Bool
  serverStopping : Bool
  pendingQuit : Bool
  showHelp : Bool
  currentModelName : String
  currentPort : String
  logBuffer : List Char
  viewportContent : List Char
  selectedModel : Option ModelItem
  portInputValue : String
  portInputFocused : Bool
deriving DecidableEq, Repr

/-- `initialModel` from `state.go` (the home directory is a parameter; the
widget initial states are projected as in `AppModel`). -/
def initialModel (home : String) : AppModel where
  statusLineText := "Ready"
  homeDir := home
  barnDir := home ++ "/.llamabarn"
  logsDir := home ++ "/.llamabarn/llama-server-logs"
  logToFileEnabled := false
  logFileOpen := false
  logFilePath := ""
  logChanPresent := false
  exitChanPresent := false
  serverCmd := none
  serverCancelPresent := false
  serverRunning := false
  serverStopping := false
  pendingQuit := false
  showHelp := false
  currentModelName := ""
  currentPort := ""
  logBuffer := []
  viewportContent := []
  selectedModel := none
  portInputValue := defaultPort
  portInputFocused := false

/-- Go `unicode.IsSpace` (the code points Go's White_Space table holds). -/
def goIsSpace (c : Char) : Bool :=
  c.toNat = 9 || c.toNat = 10 || c.toNat = 11 || c.toNat = 12 || c.toNat = 13 ||
  c.toNat = 32 || c.toNat = 133 || c.toNat = 160 || c.toNat = 0x1680 ||
  (0x2000 ≤ c.toNat && c.toNat ≤ 0x200A) || c.toNat = 0x2028 || c.toNat = 0x2029 ||
  c.toNat = 0x202F || c.toNat = 0x205F || c.toNat = 0x3000

/-- Go `strings.TrimSpace`: drop leading and trailing white space. -/
def goTrimSpace (s : String) : String :=
  ⟨((s.data.dropWhile goIsSpace).reverse.dropWhile goIsSpace).reverse⟩

/-- Decimal digit run parser underlying `strconv.Atoi`: all characters must
be `0`–`9` and at least one must be present. -/
def parseDigits (l : List Char) : Option Nat :=
  if !l.isEmpty && l.all Char.isDigit then
    some (l.foldl (fun acc c => acc * 10 + (c.toNat - 48)) 0)
  else none

/-- Largest `int64`, the range `strconv.Atoi` accepts. -/
def int64Max : Int := 9223372036854775807

/-- Smallest `int64`. -/
def int64Min : Int := -9223372036854775808

/-- Go `strconv.Atoi`: an optional sign followed by decimal digits, value
within `int64`; every other input (empty string, stray characters,
overflow) is an error, modelled as `none`. -/
def goAtoi (s : String) : Option Int :=
  let core : Option Int :=
    match s.data with
    | [] => none
    | '+' :: rest => (parseDigits rest).map (fun n => (n : Int))
    | '-' :: rest => (parseDigits rest).map (fun n => -(n : Int))
    | l => (parseDigits l).map (fun n => (n : Int))
  match core with
  | none => none
  | some v => if v < int64Min || int64Max < v then none else some v

/-- Go `strconv.Itoa` on the parsed value. -/
def goItoa (n : Int) : String := toString n

/-- `server.go:22` `validatePort`: empty string, non-number and out-of-range
inputs are rejected with the source's error messages. -/
def validatePort (portStr : String) : Except String Int :=
  if portStr = "" then Except.error "port cannot be empty"
  else
    match goAtoi portStr with
    | none => Except.error "port must be a number"
    | some port =>
      if port < 1 || port > 65535 then
        Except.error "port must be between 1 and 65535"
      else Except.ok port

/-- One handled log line, `update.go:116`–`135` (`logLineMsg` case): colorize
the line, append it and a newline to the buffer, and when the buffer exceeds
the soft limit drop its oldest half in one step (`data[len(data)/2:]`). -/
def logLineFold (buf : List Char) (text : String) : List Char :=
  let b := buf ++ (colorLog text).data ++ ['\n']
  if b.length > logBufferSoftLimitCharacters then b.drop (b.length / 2) else b

/-- Character growth one handled line causes before trimming: the colorized
line plus the appended newline (`update.go:118`–`120`). -/
def logAppendLen (text : String) : Nat := (colorLog text).length + 1

/-- The log buffer after the consumer has handled a sequence of lines,
starting from the empty buffer of a fresh session. -/
def runLogBuffer (lines : List String) : List Char := lines.foldl logLineFold []

/-- `update.go:116` `logLineMsg` case of `Update`. -/
def updateLogLine (m : AppModel) (text : String) : AppModel × Option TeaCmd :=
  let b := logLineFold m.logBuffer text
  let m := { m with logBuffer := b, viewportContent := b }
  if m.serverRunning then (m, some TeaCmd.waitLogLine) else (m, none)

/-- `update.go:82` `serverExitedMsg` case of `Update`: clear every
process-session field, classify the exit with
`msg.err != nil && !errors.Is(msg.err, context.Canceled)`, and quit when a
quit was pending. -/
def updateServerExited (m : AppModel) (err : Option GoErr) : AppModel × Option TeaCmd :=
  let m := { m with
    serverRunning := false, serverStopping := false,
    currentModelName := "", currentPort := "",
    serverCmd := none, serverCancelPresent := false,
    logChanPresent := false, exitChanPresent := false,
    logFileOpen := false, logFilePath := "" }
  let m :=
    match err with
    | some e =>
      if errorsIsCanceled (some e) then
        let b := m.logBuffer ++ (colorLog "\n[ui] Server stopped successfully\n").data
        { m with statusLineText := "Server stopped", logBuffer := b, viewportContent := b }
      else
        let b := m.logBuffer ++
          (colorLog ("\n[ui] Server stopped with error: " ++ goErrString e ++ "\n")).data
        { m with
          statusLineText := "Server stopped (error: " ++ goErrString e ++ ")",
          logBuffer := b, viewportContent := b }
    | none =>
      let b := m.logBuffer ++ (colorLog "\n[ui] Server stopped successfully\n").data
      { m with statusLineText := "Server stopped", logBuffer := b, viewportContent := b }
  (m, if m.pendingQuit then some TeaCmd.quit else none)

/-- `update.go:189` key `"s"` case of `Update`: from Running-and-not-Stopping
mark Stopping, log the notice and issue `stopServerCmd`; from Stopping only
update the status line; otherwise report that no server runs. -/
def handleKeyS (m : AppModel) : AppModel × Option TeaCmd :=
  if m.serverRunning && !m.serverStopping then
    let b := m.logBuffer ++ (colorLog "\n[ui] Stopping server...\n").data
    ({ m with serverStopping := true, statusLineText := "Stopping server...",
              logBuffer := b, viewportContent := b }, some TeaCmd.stopServer)
  else if m.serverStopping then
    ({ m with statusLineText := "Server is already stopping..." }, none)
  else
    ({ m with statusLineText := "No server is running" }, none)

/-- The port string a start request submits to validation
(`update.go:233`–`235`): the trimmed port input, with `defaultPort`
substituted for an empty input. -/
def defaultedPort (m : AppModel) : String :=
  let t := goTrimSpace m.portInputValue
  if t = "" then defaultPort else t

/-- `update.go:222` key `"enter"` case of `Update`: reject while running or
stopping, require a selected model, trim and default the port input,
validate it, normalize the accepted port with `strconv.Itoa`, blur the port
input, reset the log buffer to the initial message and issue
`startServerCmd`. -/
def handleKeyEnter (m : AppModel) : AppModel × Option TeaCmd :=
  if m.serverRunning || m.serverStopping then
    ({ m with statusLineText := "Server is already running or stopping" }, none)
  else
    match m.selectedModel with
    | none => ({ m with statusLineText := "No model selected" }, none)
    | some item =>
      let portStr := defaultedPort m
      match validatePort portStr with
      | Except.error e => ({ m with statusLineText := "Invalid port: " ++ e }, none)
      | Except.ok portNum =>
        let portStr := goItoa portNum
        let m := if m.portInputFocused then { m with portInputFocused := false } else m
        let initialMsg :=
          "Starting llama-server with model: " ++ item.name ++ " on port: " ++ portStr ++ "..."
        let colored := (colorLog initialMsg).data
        ({ m with
            logBuffer := colored, viewportContent := colored,
            statusLineText := "Starting " ++ item.name ++ " on port " ++ portStr ++ "..." },
         some (TeaCmd.startServer item portStr))

/-- `server.go:233` `waitForExit`: nil command when `m.exitChan` is nil. -/
def waitForExitCmd (m : AppModel) : Option TeaCmd :=
  if m.exitChanPresent then some TeaCmd.waitExit else none

/-- The observable side effects of `stopServerCmd` (`server.go:246`):
cancelling the owning context, the two polite signals, and the detached
2-second SIGKILL escalation timer. -/
inductive StopAction where
  | cancelCtx
  | sigInterrupt
  | sigTerm
  | scheduleKillTimer (graceMs : Nat)
deriving DecidableEq, Repr

/-- `server.go:246` `stopServerCmd`, as the list of actions it performs: with
no command handle nothing happens; otherwise the context is cancelled when a
cancel function exists, and with a non-nil `Process` the interrupt and TERM
signals are sent and one 2000 ms escalation timer is spawned. -/
def stopServerActions (m : AppModel) : List StopAction :=
  match m.serverCmd with
  | none => []
  | some cmd =>
    (if m.serverCancelPresent then [StopAction.cancelCtx] else []) ++
    (if cmd.processPresent then
      [StopAction.sigInterrupt, StopAction.sigTerm, StopAction.scheduleKillTimer 2000]
     else [])

/-- The escalation timer body, `server.go:261`–`268`: when the 2-second timer
fires, `Process.Kill` is called iff `cmd != nil && cmd.Process != nil`.
`processExited` records whether the supervised process has already exited at
fire time; the source checks only the two handle nil-checks, so the
parameter does not occur in the condition. -/
def killTimerKills (cmd : Option CmdHandle) (processExited : Bool) : Bool :=
  match cmd, processExited with
  | some c, _ => c.processPresent
  | none, _ => false

/-- `exitChan := make(chan error, 1)` (`server.go:98`): a buffered channel of
Go `error` values (`none` is a nil error) with a closed flag. -/
structure ExitChan where
  buf : List (Option GoErr)
  closed : Bool
deriving DecidableEq, Repr

/-- Channel send (the wait goroutine performs exactly one, so capacity 1 is
never exceeded). -/
def ExitChan.send (c : ExitChan) (v : Option GoErr) : ExitChan :=
  { c with buf := c.buf ++ [v] }

/-- `close(exitChan)`. -/
def ExitChan.closeChan (c : ExitChan) : ExitChan := { c with closed := true }

/-- One receive attempt: `some (v, ok)` when the receive fires (a buffered
value, or the zero value with `ok = false` from a closed empty channel),
`none` when it would block (the `default` branch of a `select`). -/
def ExitChan.tryRecv (c : ExitChan) : Option ((Option GoErr) × Bool) × ExitChan :=
  match c.buf with
  | v :: rest => (some (v, true), { c with buf := rest })
  | [] => if c.closed then (some (none, false), c) else (none, c)

/-- `waitForExit` (`server.go:237`–`243`) turns a fired receive into the
`serverExitedMsg` error: `nil` when `ok` is false, the received value
otherwise. -/
def waitForExitMsg (r : (Option GoErr) × Bool) : Option GoErr :=
  if r.2 then r.1 else none

/-- The operations the three goroutines of `startServerCmd` perform on
`exitChan`: the wait goroutine's send (`server.go:202`) and close
(`server.go:203`), the readiness prober's non-blocking receive
(`server.go:167`–`171`), and the blocking receive inside `waitForExit`. -/
inductive ExitOp where
  | goroutineSend
  | goroutineClose
  | proberTryRecv
  | waiterRecv
deriving DecidableEq, Repr

/-- State of the exit-channel subsystem: the channel, whether the wait
goroutine has already sent, whether the prober has returned, and the
`serverExitedMsg` error observed by `waitForExit` (`none` while no message
was produced yet). -/
structure ExitSys where
  ch : ExitChan
  sentDone : Bool
  proberStopped : Bool
  waiterMsg : Option (Option GoErr)
deriving DecidableEq, Repr

/-- Fresh exit-channel subsystem. -/
def ExitSys.init : ExitSys :=
  { ch := { buf := [], closed := false }, sentDone := false,
    proberStopped := false, waiterMsg := none }

/-- One scheduled operation. `none` means the operation is not enabled at
this state (program order: the send precedes the close; a blocking receive
cannot fire on an open empty channel; each one-shot operation runs once). -/
def exitSysStep (waitErr : Option GoErr) (s : ExitSys) : ExitOp → Option ExitSys
  | ExitOp.goroutineSend =>
    if s.sentDone then none
    else some { s with ch := s.ch.send waitErr, sentDone := true }
  | ExitOp.goroutineClose =>
    if s.sentDone && !s.ch.closed then some { s with ch := s.ch.closeChan } else none
  | ExitOp.proberTryRecv =>
    if s.proberStopped then none
    else
      match s.ch.tryRecv with
      | (some _, c) => some { s with ch := c, proberStopped := true }
      | (none, _) => some s
  | ExitOp.waiterRecv =>
    if s.waiterMsg.isSome then none
    else
      match s.ch.tryRecv with
      | (some r, c) => some { s with ch := c, waiterMsg := some (waitForExitMsg r) }
      | (none, _) => none

/-- Run a schedule over the exit-channel subsystem; disabled operations are
skipped (they stay blocked in the real program). -/
def exitSysRun (waitErr : Option GoErr) (sched : List ExitOp) : ExitSys :=
  sched.foldl (fun s op => (exitSysStep waitErr s op).getD s) ExitSys.init

/-- Non-blocking send into the log channel (`server.go:145`–`150` and the
diagnostics at `server.go:108`–`119`): when fewer than 1024 lines are
buffered the line is appended, otherwise it is dropped and the queue is
returned unchanged. -/
def logTrySend (q : List String) (line : String) : List String :=
  if q.length < logChanCapacity then q ++ [line] else q

/-- State of one stream reader of the log pipeline (`copyFn`,
`server.go:136`–`152`): the input lines its scanner has not yet delivered,
and whether its `wg.Done()` already ran. -/
structure ReaderSt where
  rem : List String
  done : Bool
deriving DecidableEq, Repr

/-- State of the log pipeline of `server.go:121`–`158` plus the exit waiter:
two readers, the `sync.WaitGroup` counter started at 2, the log channel
(queue contents and closed flag) and the exit channel. -/
structure PipeSt where
  r1 : ReaderSt
  r2 : ReaderSt
  wgCount : Nat
  logQueue : List String
  logClosed : Bool
  exitCh : ExitChan
  exitSent : Bool
deriving DecidableEq, Repr

/-- Scheduling alphabet of the pipeline: a scan-and-send step of either
reader, either reader's `wg.Done()`, the closer's `wg.Wait(); close(logChan)`
step, and the wait goroutine's send and close on `exitChan`. -/
inductive PipeOp where
  | r1Scan
  | r2Scan
  | r1Done
  | r2Done
  | closeLog
  | exitSend
  | exitClose
deriving DecidableEq, Repr

/-- Initial pipeline state for given stdout and stderr line streams. -/
def PipeSt.init (lines1 lines2 : List String) : PipeSt :=
  { r1 := { rem := lines1, done := false }, r2 := { rem := lines2, done := false },
    wgCount := 2, logQueue := [], logClosed := false,
    exitCh := { buf := [], closed := false }, exitSent := false }

/-- One scheduled pipeline operation; `none` when it is not enabled (a
reader cannot scan past its last line, `wg.Done` runs once after the
scanner is exhausted, `close(logChan)` only after `wg.Wait()` observes the
counter at zero, the exit close only after the exit send). -/
def pipeStep (waitErr : Option GoErr) (s : PipeSt) : PipeOp → Option PipeSt
  | PipeOp.r1Scan =>
    match s.r1.rem with
    | line :: rest =>
      some { s with r1 := { s.r1 with rem := rest }, logQueue := logTrySend s.logQueue line }
    | [] => none
  | PipeOp.r2Scan =>
    match s.r2.rem with
    | line :: rest =>
      some { s with r2 := { s.r2 with rem := rest }, logQueue := logTrySend s.logQueue line }
    | [] => none
  | PipeOp.r1Done =>
    if s.r1.rem.isEmpty && !s.r1.done then
      some { s with r1 := { s.r1 with done := true }, wgCount := s.wgCount - 1 }
    else none
  | PipeOp.r2Done =>
    if s.r2.rem.isEmpty && !s.r2.done then
      some { s with r2 := { s.r2 with done := true }, wgCount := s.wgCount - 1 }
    else none
  | PipeOp.closeLog =>
    if s.wgCount = 0 && !s.logClosed then some { s with logClosed := true } else none
  | PipeOp.exitSend =>
    if s.exitSent then none
    else some { s with exitCh := s.exitCh.send waitErr, exitSent := true }
  | PipeOp.exitClose =>
    if s.exitSent && !s.exitCh.closed then
      some { s with exitCh := s.exitCh.closeChan }
    else none

/-- Run a schedule over the pipeline; disabled operations are skipped. -/
def pipeRun (waitErr : Option GoErr) (lines1 lines2 : List String)
    (sched : List PipeOp) : PipeSt :=
  sched.foldl (fun s op => (pipeStep waitErr s op).getD s) (PipeSt.init lines1 lines2)

/-- Overall readiness deadline, `server.go:163`: 90 seconds. -/
def readinessDeadlineMs : Nat := 90000

/-- Per-dial timeout, `server.go:164`: 500 ms. -/
def dialTimeoutMs : Nat := 500

/-- Sleep between poll rounds, `server.go:195`: 500 ms. -/
def probeSleepMs : Nat := 500

/-- Outcome of the readiness probe goroutine (`server.go:161`–`197`):
stopped silently because the process exited, emitted the `Ready` line, or
emitted the 90-second warning; the carried time is the probe-relative
emission instant in milliseconds. -/
inductive ProbeResult where
  | stoppedOnExit
  | readyAt (tMs : Nat)
  | timedOutAt (tMs : Nat)
deriving DecidableEq, Repr

/-- The probe loop. Iteration `i` at elapsed time `t`: a non-blocking exit
check, then the two loopback dials taking `dialMs i` milliseconds in total,
then the `Ready` emission on success, then the strict `time.Now().After
(deadline)` check emitting the warning, then the 500 ms sleep. `fuel`
bounds the recursion; every run of interest terminates within it because
each iteration advances time by at least the sleep. -/
def probeLoop (exited ready : Nat → Bool) (dialMs : Nat → Nat) :
    Nat → Nat → Nat → Option ProbeResult
  | 0, _, _ => none
  | fuel + 1, i, t =>
    if exited i then some ProbeResult.stoppedOnExit
    else
      let t1 := t + dialMs i
      if ready i then some (ProbeResult.readyAt t1)
      else if readinessDeadlineMs < t1 then some (ProbeResult.timedOutAt t1)
      else probeLoop exited ready dialMs fuel (i + 1) (t1 + probeSleepMs)

/-- A session that is Running and not Stopping, as `startedWithStateMsg`
leaves it (`update.go:49`–`66`): process handles attached, channels live. -/
def runningModel : AppModel :=
  { initialModel "/home/user" with
    serverRunning := true, serverStopping := false,
    serverCmd := some { processPresent := true }, serverCancelPresent := true,
    logChanPresent := true, exitChanPresent := true,
    currentModelName := "m.gguf", currentPort := "8080",
    statusLineText := "Serving m.gguf on port 8080" }

/-- `runningModel` after a stop request was issued (session Stopping). -/
def stoppingModel : AppModel := { runningModel with serverStopping := true }

/-- The status line of the error branch of the `serverExitedMsg` handler is
never the clean `"Server stopped"` text: the error rendering makes it
strictly longer. -/
theorem errored_status_ne_clean (s : String) :
    "Server stopped (error: " ++ s ++ ")" ≠ "Server stopped" := by
  intro h
  have hl := congrArg String.length h
  rw [String.length_append, String.length_append] at hl
  have h1 : ("Server stopped (error: " : String).length = 23 := rfl
  have h2 : ((")" : String)).length = 1 := rfl
  have h3 : ("Server stopped" : String).length = 14 := rfl
  omega

/-- C7: a start request (key `"enter"`) issued while the session is Running
or Stopping is rejected with no side effects: the handler returns no
command (so no process is spawned, no queues or log files are created) and
the only field it writes is the status-line text. -/
theorem claim_C7_start_rejected_while_active (m : AppModel)
    (h : m.serverRunning = true ∨ m.serverStopping = true) :
    handleKeyEnter m =
      ({ m with statusLineText := "Server is already running or stopping" }, none) := by
  unfold handleKeyEnter
  rcases h with h | h <;> simp [h]

/-- C7 witness: the rejection evaluated on a concrete Running session. -/
theorem claim_C7_witness :
    (runningModel.serverRunning = true ∨ runningModel.serverStopping = true) ∧
    handleKeyEnter runningModel =
      ({ runningModel with statusLineText := "Server is already running or stopping" },
       none) :=
  ⟨Or.inl rfl, claim_C7_start_rejected_while_active runningModel (Or.inl rfl)⟩

/-- C9: the log queue has fixed capacity 1024; a non-blocking send onto a
full queue drops the line and leaves the queued lines unchanged, a send
onto a non-full queue appends it; and a reader's scan-and-send step is
always enabled while its stream has lines, whatever the queue holds — the
send never blocks and a drop is not surfaced anywhere. -/
theorem claim_C9_bounded_queue_drop (q : List String) (line : String) :
    (logChanCapacity ≤ q.length → logTrySend q line = q) ∧
    (q.length < logChanCapacity → logTrySend q line = q ++ [line]) ∧
    logChanCapacity = 1024 ∧
    (∀ (w : Option GoErr) (s : PipeSt) (x : String) (rest : List String),
      s.r1.rem = x :: rest →
      pipeStep w s PipeOp.r1Scan =
        some { s with r1 := { s.r1 with rem := rest },
                      logQueue := logTrySend s.logQueue x }) := by
  refine ⟨?_, ?_, rfl, ?_⟩
  · intro h
    unfold logTrySend
    rw [if_neg]
    omega
  · intro h
    unfold logTrySend
    rw [if_pos h]
  · intro w s x rest h
    simp [pipeStep, h]

/-- C3 counterexample: the escalation-timer body sends the kill signal even
when the process has already exited during the grace window, as long as the
command and process handles are non-nil — the claim's "no forceful kill is
issued" branch is false on the code. -/
theorem claim_C3_counterexample :
    killTimerKills (some { processPresent := true }) true = true ∧
    ¬ killTimerKills (some { processPresent := true }) true = false := by
  exact ⟨rfl, by decide⟩

/-- C3 (amended): a stop request on a session with a live command and
process handle performs the context cancel, the two polite signals, and
spawns exactly one 2000 ms escalation timer; when that timer fires it calls
`Process.Kill` unconditionally — only the handle nil-checks guard it, so
the kill is issued whether or not the process has already exited. -/
theorem claim_C3_kill_timer_unconditional (m : AppModel) (cmd : CmdHandle)
    (hc : m.serverCmd = some cmd) (hp : cmd.processPresent = true) :
    (stopServerActions m).count (StopAction.scheduleKillTimer 2000) = 1 ∧
    (∀ processExited : Bool, killTimerKills m.serverCmd processExited = true) := by
  constructor
  · unfold stopServerActions
    rw [hc]
    cases h : m.serverCancelPresent <;> simp [hp]
  · intro processExited
    rw [hc]
    simp [killTimerKills, hp]

/-- C3 witness: the amended statement evaluated on a concrete Running
session with live handles. -/
theorem claim_C3_witness :
    runningModel.serverCmd = some { processPresent := true } ∧
    (CmdHandle.processPresent { processPresent := true }) = true ∧
    ((stopServerActions runningModel).count (StopAction.scheduleKillTimer 2000) = 1 ∧
     (∀ processExited : Bool,
        killTimerKills runningModel.serverCmd processExited = true)) :=
  ⟨rfl, rfl,
   claim_C3_kill_timer_unconditional runningModel { processPresent := true } rfl rfl⟩

/-- C2 counterexample: an exit that was preceded by the user's own stop
request (session Stopping) but whose wait error is the signal-derived
`"signal: terminated"` — not the `context.Canceled` sentinel — is classified
as an error, not as a clean stop. -/
theorem claim_C2_counterexample :
    stoppingModel.serverStopping = true ∧
    (updateServerExited stoppingModel
        (some (GoErr.signalErr "terminated"))).1.statusLineText
      = "Server stopped (error: signal: terminated)" ∧
    (updateServerExited stoppingModel
        (some (GoErr.signalErr "terminated"))).1.statusLineText
      ≠ "Server stopped" := by
  refine ⟨rfl, rfl, ?_⟩
  exact errored_status_ne_clean "signal: terminated"

/-- C2 (amended): the `serverExitedMsg` handler classifies an exit as a
clean stop iff the wait error is nil or is the `context.Canceled` sentinel
(`errors.Is(msg.err, context.Canceled)`); the stop-request flag
(`serverStopping`) is never consulted, so a signal-derived non-Canceled
error is classified as an error even when the exit was preceded by the
user's own stop request. -/
theorem claim_C2_exit_classified_by_sentinel (m : AppModel) (err : Option GoErr) :
    ((updateServerExited m err).1.statusLineText = "Server stopped"
      ↔ (err = none ∨ err = some GoErr.canceled)) ∧
    (∀ b : Bool,
      (updateServerExited { m with serverStopping := b } err).1.statusLineText =
        (updateServerExited m err).1.statusLineText) := by
  constructor
  · cases err with
    | none => simp [updateServerExited]
    | some e =>
      cases e with
      | canceled => simp [updateServerExited, errorsIsCanceled]
      | exitStatus c =>
        simp only [updateServerExited, errorsIsCanceled]
        constructor
        · intro h
          exact absurd h (errored_status_ne_clean _)
        · intro h
          rcases h with h | h <;> cases h
      | signalErr s =>
        simp only [updateServerExited, errorsIsCanceled]
        constructor
        · intro h
          exact absurd h (errored_status_ne_clean _)
        · intro h
          rcases h with h | h <;> cases h
      | otherErr s =>
        simp only [updateServerExited, errorsIsCanceled]
        constructor
        · intro h
          exact absurd h (errored_status_ne_clean _)
        · intro h
          rcases h with h | h <;> cases h
  · intro b
    cases err with
    | none => rfl
    | some e => cases e <;> rfl

/-- Any state's stop-action list spawns at most one escalation timer. -/
theorem stopServerActions_count_le_one (m : AppModel) :
    (stopServerActions m).count (StopAction.scheduleKillTimer 2000) ≤ 1 := by
  unfold stopServerActions
  cases h : m.serverCmd with
  | none => simp
  | some cmd =>
    cases hc : m.serverCancelPresent <;> cases hp : cmd.processPresent <;> simp [hp]

/-- C6: pressing `"s"` on a Running session issues the stop command and
marks the session Stopping; pressing `"s"` again while Stopping is a no-op —
no command is returned (so `stopServerCmd` does not run again and no second
escalation timer is spawned; one stop invocation spawns at most one), only
the status-line text changes; and after the single `Exited` event is
consumed the exit channel is cleared, so no further exit wait is queued. -/
theorem claim_C6_second_stop_noop (m : AppModel)
    (hr : m.serverRunning = true) (hs : m.serverStopping = false) :
    (handleKeyS m).2 = some TeaCmd.stopServer ∧
    (handleKeyS m).1.serverStopping = true ∧
    (handleKeyS (handleKeyS m).1).2 = none ∧
    (handleKeyS (handleKeyS m).1).1 =
      { (handleKeyS m).1 with statusLineText := "Server is already stopping..." } ∧
    (stopServerActions (handleKeyS m).1).count (StopAction.scheduleKillTimer 2000) ≤ 1 ∧
    (∀ err : Option GoErr,
      (updateServerExited (handleKeyS (handleKeyS m).1).1 err).1.exitChanPresent = false ∧
      waitForExitCmd (updateServerExited (handleKeyS (handleKeyS m).1).1 err).1 = none) := by
  refine ⟨?_, ?_, ?_, ?_, ?_, ?_⟩
  · simp [handleKeyS, hr, hs]
  · simp [handleKeyS, hr, hs]
  · simp [handleKeyS, hr, hs]
  · simp [handleKeyS, hr, hs]
  · exact stopServerActions_count_le_one _
  · intro err
    constructor
    · cases err with
      | none => rfl
      | some e => cases e <;> rfl
    · cases err with
      | none => rfl
      | some e => cases e <;> rfl

/-- C6 witness: the double stop evaluated on a concrete Running session. -/
theorem claim_C6_witness :
    runningModel.serverRunning = true ∧ runningModel.serverStopping = false ∧
    ((handleKeyS runningModel).2 = some TeaCmd.stopServer ∧
     (handleKeyS runningModel).1.serverStopping = true ∧
     (handleKeyS (handleKeyS runningModel).1).2 = none ∧
     (handleKeyS (handleKeyS runningModel).1).1 =
       { (handleKeyS runningModel).1 with
         statusLineText := "Server is already stopping..." } ∧
     (stopServerActions (handleKeyS runningModel).1).count
       (StopAction.scheduleKillTimer 2000) ≤ 1 ∧
     (∀ err : Option GoErr,
       (updateServerExited
         (handleKeyS (handleKeyS runningModel).1).1 err).1.exitChanPresent = false ∧
       waitForExitCmd
         (updateServerExited (handleKeyS (handleKeyS runningModel).1).1 err).1 = none)) :=
  ⟨rfl, rfl, claim_C6_second_stop_noop runningModel rfl rfl⟩

/-- Invariant of the exit-channel subsystem when the wait goroutine's value
is `some e`: the buffer holds at most that one value, nothing is buffered
before the send, and any message the waiter observed is either the sent
error or the closed-channel nil. -/
def ExitSysInv (e : GoErr) (s : ExitSys) : Prop :=
  (s.ch.buf = [] ∨ s.ch.buf = [some e]) ∧
  (s.sentDone = false → s.ch.buf = []) ∧
  (∀ v, s.waiterMsg = some v → v = some e ∨ v = none)

theorem exitSysStep_inv (e : GoErr) (s : ExitSys) (op : ExitOp)
    (h : ExitSysInv e s) : ExitSysInv e ((exitSysStep (some e) s op).getD s) := by
  obtain ⟨h1, h2, h3⟩ := h
  cases op with
  | goroutineSend =>
    unfold exitSysStep
    cases hs : s.sentDone with
    | true => exact ⟨h1, h2, h3⟩
    | false =>
      have hbuf := h2 hs
      refine ⟨?_, ?_, ?_⟩
      · right
        simp [ExitChan.send, hbuf]
      · intro hcontra
        simp at hcontra
      · simpa using h3
  | goroutineClose =>
    unfold exitSysStep
    cases hc : (s.sentDone && !s.ch.closed) with
    | false => exact ⟨h1, h2, h3⟩
    | true =>
      refine ⟨?_, ?_, ?_⟩
      · simpa [ExitChan.closeChan] using h1
      · intro hsd
        simp at hc
        rw [hc.1] at hsd
        cases hsd
      · simpa using h3
  | proberTryRecv =>
    unfold exitSysStep
    cases hp : s.proberStopped with
    | true => exact ⟨h1, h2, h3⟩
    | false =>
      simp only [Bool.false_eq_true, if_false]
      rcases hb : s.ch.buf with _ | ⟨v, rest⟩
      · unfold ExitChan.tryRecv
        rw [hb]
        cases hcl : s.ch.closed with
        | true =>
          refine ⟨Or.inl hb, fun _ => hb, ?_⟩
          intro u hu
          simp at hu
          exact h3 u hu
        | false => exact ⟨h1, h2, h3⟩
      · unfold ExitChan.tryRecv
        rw [hb]
        have hv : v = some e ∧ rest = [] := by
          rcases h1 with h1 | h1
          · rw [hb] at h1; cases h1
          · rw [hb] at h1
            injection h1 with hv hr
            exact ⟨hv, hr⟩
        refine ⟨?_, ?_, ?_⟩
        · left
          simp [hv.2]
        · intro hsd
          have := h2 hsd
          rw [hb] at this
          cases this
        · simpa using h3
  | waiterRecv =>
    unfold exitSysStep
    cases hw : s.waiterMsg.isSome with
    | true => exact ⟨h1, h2, h3⟩
    | false =>
      simp only [Bool.false_eq_true, if_false]
      rcases hb : s.ch.buf with _ | ⟨v, rest⟩
      · unfold ExitChan.tryRecv
        rw [hb]
        cases hcl : s.ch.closed with
        | true =>
          refine ⟨Or.inl hb, fun _ => hb, ?_⟩
          intro u hu
          simp [waitForExitMsg] at hu
          right
          exact hu.symm
        | false => exact ⟨h1, h2, h3⟩
      · unfold ExitChan.tryRecv
        rw [hb]
        have hv : v = some e ∧ rest = [] := by
          rcases h1 with h1 | h1
          · rw [hb] at h1; cases h1
          · rw [hb] at h1
            injection h1 with hv hr
            exact ⟨hv, hr⟩
        refine ⟨by left; simp [hv.2], ?_, ?_⟩
        · intro hsd
          have := h2 hsd
          rw [hb] at this
          cases this
        · intro u hu
          simp [waitForExitMsg] at hu
          left
          rw [← hu, hv.1]

theorem exitSysRun_inv (e : GoErr) (sched : List ExitOp) :
    ExitSysInv e (exitSysRun (some e) sched) := by
  have hgen : ∀ (l : List ExitOp) (s : ExitSys), ExitSysInv e s →
      ExitSysInv e (l.foldl (fun s op => (exitSysStep (some e) s op).getD s) s) := by
    intro l
    induction l with
    | nil => intro s hs; exact hs
    | cons op rest ih =>
      intro s hs
      exact ih _ (exitSysStep_inv e s op hs)
  refine hgen sched ExitSys.init ?_
  refine ⟨Or.inl rfl, fun _ => rfl, ?_⟩
  intro v hv
  cases hv

/-- C1: when the supervised process exits with a non-zero status and no stop
was requested, the wait goroutine posts the non-nil, non-cancellation
`exit status` error on the exit channel. In every interleaving the consumer
observes either that error or nil; when the exit waiter receives the
buffered error (e.g. the waiter runs before the prober's next poll), the
handler puts the session in the errored state, not the clean one. As the
claim's note records, the readiness prober's non-blocking receive may
consume the single buffered value first, in which case the waiter reads the
closed channel, the observed event carries a nil error, and the session is
treated as cleanly stopped. -/
theorem claim_C1_nonzero_exit_errored (c : Nat) (m : AppModel) :
    (∀ (sched : List ExitOp) (v : Option GoErr),
      (exitSysRun (some (GoErr.exitStatus (c + 1))) sched).waiterMsg = some v →
      v = some (GoErr.exitStatus (c + 1)) ∨ v = none) ∧
    ((exitSysRun (some (GoErr.exitStatus (c + 1)))
        [ExitOp.goroutineSend, ExitOp.waiterRecv]).waiterMsg
      = some (some (GoErr.exitStatus (c + 1)))) ∧
    errorsIsCanceled (some (GoErr.exitStatus (c + 1))) = false ∧
    ((updateServerExited m (some (GoErr.exitStatus (c + 1)))).1.statusLineText
        = "Server stopped (error: exit status " ++ toString (c + 1) ++ ")" ∧
     (updateServerExited m (some (GoErr.exitStatus (c + 1)))).1.statusLineText
        ≠ "Server stopped") ∧
    ((exitSysRun (some (GoErr.exitStatus (c + 1)))
        [ExitOp.goroutineSend, ExitOp.proberTryRecv, ExitOp.goroutineClose,
         ExitOp.waiterRecv]).waiterMsg = some none ∧
     (updateServerExited m none).1.statusLineText = "Server stopped") := by
  refine ⟨?_, ?_, rfl, ⟨?_, ?_⟩, ⟨?_, rfl⟩⟩
  · intro sched v hv
    exact (exitSysRun_inv (GoErr.exitStatus (c + 1)) sched).2.2 v hv
  · rfl
  · rfl
  · show ("Server stopped (error: exit status " ++ toString (c + 1) ++ ")")
        ≠ "Server stopped"
    intro hcontra
    have hl := congrArg String.length hcontra
    rw [String.length_append, String.length_append] at hl
    have h1 : ("Server stopped (error: exit status " : String).length = 35 := rfl
    have h2 : ((")" : String)).length = 1 := rfl
    have h3 : ("Server stopped" : String).length = 14 := rfl
    omega
  · rfl

/-- Invariant of the log pipeline: a reader that ran `wg.Done()` has
exhausted its stream, the `WaitGroup` counter counts the readers still to
finish, and the log channel is only ever closed with the counter at zero. -/
def PipeInv (s : PipeSt) : Prop :=
  (s.r1.done = true → s.r1.rem = []) ∧
  (s.r2.done = true → s.r2.rem = []) ∧
  s.wgCount = (if s.r1.done then 0 else 1) + (if s.r2.done then 0 else 1) ∧
  (s.logClosed = true → s.wgCount = 0)

theorem pipeStep_inv (w : Option GoErr) (s : PipeSt) (op : PipeOp)
    (h : PipeInv s) : PipeInv ((pipeStep w s op).getD s) := by
  obtain ⟨h1, h2, h3, h4⟩ := h
  cases op with
  | r1Scan =>
    unfold pipeStep
    rcases hr : s.r1.rem with _ | ⟨x, rest⟩
    · exact ⟨h1, h2, h3, h4⟩
    · have hd : s.r1.done = false := by
        cases hd : s.r1.done with
        | false => rfl
        | true => rw [h1 hd] at hr; cases hr
      refine ⟨?_, h2, ?_, h4⟩
      · intro hcontra
        simp at hcontra
        rw [hd] at hcontra
        cases hcontra
      · simpa [hd] using h3
  | r2Scan =>
    unfold pipeStep
    rcases hr : s.r2.rem with _ | ⟨x, rest⟩
    · exact ⟨h1, h2, h3, h4⟩
    · have hd : s.r2.done = false := by
        cases hd : s.r2.done with
        | false => rfl
        | true => rw [h2 hd] at hr; cases hr
      refine ⟨h1, ?_, ?_, h4⟩
      · intro hcontra
        simp at hcontra
        rw [hd] at hcontra
        cases hcontra
      · simpa [hd] using h3
  | r1Done =>
    unfold pipeStep
    cases hg : (s.r1.rem.isEmpty && !s.r1.done) with
    | false => exact ⟨h1, h2, h3, h4⟩
    | true =>
      simp only [Bool.and_eq_true, Bool.not_eq_eq_eq_not, Bool.not_true,
        List.isEmpty_iff] at hg
      obtain ⟨hrem, hdone⟩ := hg
      rw [hdone] at h3
      simp only [if_false, Bool.false_eq_true] at h3
      refine ⟨fun _ => hrem, h2, ?_, ?_⟩
      · simp [h3]
      · intro hcl
        have := h4 hcl
        omega
  | r2Done =>
    unfold pipeStep
    cases hg : (s.r2.rem.isEmpty && !s.r2.done) with
    | false => exact ⟨h1, h2, h3, h4⟩
    | true =>
      simp only [Bool.and_eq_true, Bool.not_eq_eq_eq_not, Bool.not_true,
        List.isEmpty_iff] at hg
      obtain ⟨hrem, hdone⟩ := hg
      rw [hdone] at h3
      simp only [if_false, Bool.false_eq_true] at h3
      refine ⟨h1, fun _ => hrem, ?_, ?_⟩
      · simp [h3]
      · intro hcl
        have := h4 hcl
        omega
  | closeLog =>
    unfold pipeStep
    cases hg : (s.wgCount = 0 && !s.logClosed) with
    | false => exact ⟨h1, h2, h3, h4⟩
    | true =>
      simp only [Bool.and_eq_true, decide_eq_true_eq] at hg
      exact ⟨h1, h2, h3, fun _ => hg.1⟩
  | exitSend =>
    unfold pipeStep
    cases hg : s.exitSent with
    | true => exact ⟨h1, h2, h3, h4⟩
    | false => exact ⟨h1, h2, h3, h4⟩
  | exitClose =>
    unfold pipeStep
    cases hg : (s.exitSent && !s.exitCh.closed) with
    | false => exact ⟨h1, h2, h3, h4⟩
    | true => exact ⟨h1, h2, h3, h4⟩

theorem pipeRun_inv (w : Option GoErr) (lines1 lines2 : List String)
    (sched : List PipeOp) : PipeInv (pipeRun w lines1 lines2 sched) := by
  have hgen : ∀ (l : List PipeOp) (s : PipeSt), PipeInv s →
      PipeInv (l.foldl (fun s op => (pipeStep w s op).getD s) s) := by
    intro l
    induction l with
    | nil => intro s hs; exact hs
    | cons op rest ih =>
      intro s hs
      exact ih _ (pipeStep_inv w s op hs)
  refine hgen sched (PipeSt.init lines1 lines2) ?_
  unfold PipeInv PipeSt.init
  refine ⟨?_, ?_, rfl, ?_⟩ <;> (intro h; simp at h)

/-- C8: in every interleaving of the log pipeline's goroutines, the log
channel is closed only after both stream readers have run `wg.Done()`, which
they do only once their streams are exhausted — so a closed queue implies
both readers delivered everything; and the closing step writes nothing but
the closed flag, in particular it leaves the queued lines and the separate
exit channel untouched, so queue closure and process exit travel on
different channels. -/
theorem claim_C8_close_only_after_both_readers (waitErr : Option GoErr)
    (lines1 lines2 : List String) (sched : List PipeOp) :
    ((pipeRun waitErr lines1 lines2 sched).logClosed = true →
      (pipeRun waitErr lines1 lines2 sched).r1.done = true ∧
      (pipeRun waitErr lines1 lines2 sched).r2.done = true ∧
      (pipeRun waitErr lines1 lines2 sched).r1.rem = [] ∧
      (pipeRun waitErr lines1 lines2 sched).r2.rem = []) ∧
    (∀ s s' : PipeSt, pipeStep waitErr s PipeOp.closeLog = some s' →
      s' = { s with logClosed := true }) := by
  constructor
  · intro hcl
    obtain ⟨h1, h2, h3, h4⟩ := pipeRun_inv waitErr lines1 lines2 sched
    have hwg := h4 hcl
    rw [hwg] at h3
    cases hda : (pipeRun waitErr lines1 lines2 sched).r1.done with
    | true =>
      cases hdb : (pipeRun waitErr lines1 lines2 sched).r2.done with
      | true => exact ⟨rfl, rfl, h1 hda, h2 hdb⟩
      | false => rw [hda, hdb] at h3; simp at h3
    | false =>
      cases hdb : (pipeRun waitErr lines1 lines2 sched).r2.done with
      | true => rw [hda, hdb] at h3; simp at h3
      | false => rw [hda, hdb] at h3; simp at h3
  · intro s s' hstep
    unfold pipeStep at hstep
    cases hg : (s.wgCount = 0 && !s.logClosed) with
    | false => rw [hg] at hstep; cases hstep
    | true =>
      rw [hg] at hstep
      injection hstep with hstep
      exact hstep.symm

/-- A concrete interleaving reaching queue closure: both readers drain their
single line, both run `wg.Done()`, then the closer proceeds — showing the
closed case of C8 is reachable. -/
theorem pipeRun_example_closes :
    (pipeRun none ["out"] ["err"]
      [PipeOp.r1Scan, PipeOp.r2Scan, PipeOp.r1Done, PipeOp.r2Done,
       PipeOp.closeLog]).logClosed = true := by
  decide

/-- In the never-ready, never-exiting scenario the probe loop can only emit
the timeout warning (or run out of fuel). -/
theorem probeLoop_no_port_only_timeout (dialMs : Nat → Nat) :
    ∀ (fuel i t : Nat) (r : ProbeResult),
      probeLoop (fun _ => false) (fun _ => false) dialMs fuel i t = some r →
      ∃ T, r = ProbeResult.timedOutAt T := by
  intro fuel
  induction fuel with
  | zero =>
    intro i t r h
    cases h
  | succ n ih =>
    intro i t r h
    unfold probeLoop at h
    simp only [Bool.false_eq_true, if_false] at h
    by_cases hd : readinessDeadlineMs < t + dialMs i
    · rw [if_pos hd] at h
      injection h with h
      exact ⟨t + dialMs i, h.symm⟩
    · rw [if_neg hd] at h
      exact ih _ _ _ h

/-- Soundness of the timeout instant: started with elapsed time at most one
sleep past the deadline (true of the initial call at `t = 0`), a timeout
emission happens strictly after the 90 s deadline and at most one sleep plus
two dial timeouts after it. -/
theorem probeLoop_timeout_bounds (dialMs : Nat → Nat)
    (hd : ∀ i, dialMs i ≤ 2 * dialTimeoutMs) :
    ∀ (fuel i t T : Nat), t ≤ readinessDeadlineMs + probeSleepMs →
      probeLoop (fun _ => false) (fun _ => false) dialMs fuel i t
        = some (ProbeResult.timedOutAt T) →
      readinessDeadlineMs < T ∧
        T ≤ readinessDeadlineMs + probeSleepMs + 2 * dialTimeoutMs := by
  intro fuel
  induction fuel with
  | zero =>
    intro i t T ht h
    cases h
  | succ n ih =>
    intro i t T ht h
    unfold probeLoop at h
    simp only [Bool.false_eq_true, if_false] at h
    by_cases hgt : readinessDeadlineMs < t + dialMs i
    · rw [if_pos hgt] at h
      injection h with h
      injection h with h
      have hdi := hd i
      omega
    · rw [if_neg hgt] at h
      refine ih (i + 1) (t + dialMs i + probeSleepMs) T ?_ h
      omega

/-- With fuel worth more sleeps than the deadline, the warning is emitted. -/
theorem probeLoop_timeout_emitted (dialMs : Nat → Nat) :
    ∀ (fuel i t : Nat), t ≤ readinessDeadlineMs + probeSleepMs →
      readinessDeadlineMs + probeSleepMs < t + probeSleepMs * fuel →
      ∃ T, probeLoop (fun _ => false) (fun _ => false) dialMs fuel i t
        = some (ProbeResult.timedOutAt T) := by
  intro fuel
  induction fuel with
  | zero =>
    intro i t ht hf
    omega
  | succ n ih =>
    intro i t ht hf
    unfold probeLoop
    simp only [Bool.false_eq_true, if_false]
    by_cases hgt : readinessDeadlineMs < t + dialMs i
    · rw [if_pos hgt]
      exact ⟨t + dialMs i, rfl⟩
    · rw [if_neg hgt]
      rw [Nat.mul_succ] at hf
      refine ih (i + 1) (t + dialMs i + probeSleepMs) ?_ ?_ <;> omega

/-- C5 counterexample: with the port never accepting, the process never
exiting, and every poll round's two dials running into their full 500 ms
timeouts, the warning is emitted at 91 000 ms — later than the claimed
bound of 90 s plus one 500 ms poll interval (it is still within 90 s plus
one sleep plus two dial timeouts). -/
theorem claim_C5_counterexample :
    probeLoop (fun _ => false) (fun _ => false) (fun _ => 2 * dialTimeoutMs) 100 0 0
      = some (ProbeResult.timedOutAt 91000) ∧
    readinessDeadlineMs + probeSleepMs < 91000 ∧
    ((fun _ : Nat => 2 * dialTimeoutMs) 0 ≤ 2 * dialTimeoutMs) := by
  refine ⟨by decide, by decide, Nat.le_refl _⟩

/-- C5 (amended): if the process never accepts a connection on the target
port and never exits, the readiness prober emits the `ReadinessTimedOut`
warning exactly once — every emission of the scenario is a timeout emission
and the loop stops at it — at an instant strictly later than the 90-second
deadline (never before it) and no later than 90 s plus one 500 ms poll
sleep plus two 500 ms dial timeouts (91.5 s); with enough fuel the emission
happens. -/
theorem claim_C5_timeout_window (dialMs : Nat → Nat)
    (hd : ∀ i, dialMs i ≤ 2 * dialTimeoutMs) :
    (∀ (fuel T : Nat),
      probeLoop (fun _ => false) (fun _ => false) dialMs fuel 0 0
        = some (ProbeResult.timedOutAt T) →
      readinessDeadlineMs < T ∧
        T ≤ readinessDeadlineMs + probeSleepMs + 2 * dialTimeoutMs) ∧
    (∀ (fuel : Nat) (r : ProbeResult),
      probeLoop (fun _ => false) (fun _ => false) dialMs fuel 0 0 = some r →
      ∃ T, r = ProbeResult.timedOutAt T) ∧
    (∃ T, probeLoop (fun _ => false) (fun _ => false) dialMs 200 0 0
        = some (ProbeResult.timedOutAt T)) := by
  refine ⟨?_, ?_, ?_⟩
  · intro fuel T h
    exact probeLoop_timeout_bounds dialMs hd fuel 0 0 T (by omega) h
  · intro fuel r h
    exact probeLoop_no_port_only_timeout dialMs fuel 0 0 r h
  · refine probeLoop_timeout_emitted dialMs 200 0 0 ?_ ?_ <;> decide

/-- C5 witness: the amended window evaluated with instantaneous dials
(`dialMs i = 0`), where the warning lands at 90 500 ms. -/
theorem claim_C5_witness :
    (∀ i : Nat, (fun _ : Nat => 0) i ≤ 2 * dialTimeoutMs) ∧
    ((∀ (fuel T : Nat),
        probeLoop (fun _ => false) (fun _ => false) (fun _ : Nat => 0) fuel 0 0
          = some (ProbeResult.timedOutAt T) →
        readinessDeadlineMs < T ∧
          T ≤ readinessDeadlineMs + probeSleepMs + 2 * dialTimeoutMs) ∧
      (∀ (fuel : Nat) (r : ProbeResult),
        probeLoop (fun _ => false) (fun _ => false) (fun _ : Nat => 0) fuel 0 0
          = some r →
        ∃ T, r = ProbeResult.timedOutAt T) ∧
      (∃ T, probeLoop (fun _ => false) (fun _ => false) (fun _ : Nat => 0) 200 0 0
          = some (ProbeResult.timedOutAt T))) :=
  ⟨fun _ => Nat.zero_le _, claim_C5_timeout_window (fun _ => 0) (fun _ => Nat.zero_le _)⟩

theorem string_data_length (s : String) : s.data.length = s.length := rfl

/-- Length of one log-line handling step: the buffer grows by the colorized
line plus newline, then loses its oldest half when it exceeds the cap. -/
theorem logLineFold_length (buf : List Char) (t : String) :
    (logLineFold buf t).length =
      if logBufferSoftLimitCharacters < buf.length + logAppendLen t
      then (buf.length + logAppendLen t) - (buf.length + logAppendLen t) / 2
      else buf.length + logAppendLen t := by
  unfold logLineFold logAppendLen
  have hb : (buf ++ (colorLog t).data ++ ['\n']).length
      = buf.length + ((colorLog t).length + 1) := by
    simp [List.length_append, string_data_length]
  simp only []
  rw [hb]
  by_cases h : logBufferSoftLimitCharacters < buf.length + ((colorLog t).length + 1)
  · rw [if_pos h, if_pos h]
    simp [List.length_drop, hb]
  · rw [if_neg h, if_neg h]
    exact hb

/-- The buffer length never exceeds twice the soft cap, provided no single
appended line does (the scanners cap a raw line at 1 MiB, far below it). -/
theorem foldl_logLineFold_length_le (lines : List String) :
    ∀ buf : List Char, buf.length ≤ 2 * logBufferSoftLimitCharacters →
    (∀ l ∈ lines, logAppendLen l ≤ 2 * logBufferSoftLimitCharacters) →
    (lines.foldl logLineFold buf).length ≤ 2 * logBufferSoftLimitCharacters := by
  induction lines with
  | nil =>
    intro buf hb _
    simpa using hb
  | cons x xs ih =>
    intro buf hb hl
    simp only [List.foldl_cons]
    refine ih _ ?_ ?_
    · rw [logLineFold_length]
      have hx := hl x (List.mem_cons_self x xs)
      split <;> omega
    · intro l hlmem
      exact hl l (List.mem_cons_of_mem _ hlmem)

/-- C4: after handling any appended log line, the log record's length is at
most the soft cap (2,000,000 characters) plus the length of that one
appended line — the appended line being, as the claim's note records, the
colorized line plus its newline, so growth is measured on `logAppendLen`;
and whenever the cap is exceeded the handler discards exactly the oldest
half of the appended buffer in a single step. The hypothesis bounds each
earlier appended line by twice the cap, which the scanners' 1 MiB line
limit guarantees with a wide margin. -/
theorem claim_C4_soft_cap_overshoot (lines : List String) (t : String)
    (h : ∀ l ∈ lines, logAppendLen l ≤ 2 * logBufferSoftLimitCharacters) :
    (runLogBuffer (lines ++ [t])).length
      ≤ logBufferSoftLimitCharacters + logAppendLen t ∧
    (∀ (buf : List Char) (u : String),
      logBufferSoftLimitCharacters < buf.length + logAppendLen u →
      logLineFold buf u =
        (buf ++ (colorLog u).data ++ ['\n']).drop ((buf.length + logAppendLen u) / 2)) := by
  constructor
  · unfold runLogBuffer
    rw [List.foldl_append]
    simp only [List.foldl_cons, List.foldl_nil]
    rw [logLineFold_length]
    have hinv := foldl_logLineFold_length_le lines [] (by simp) h
    split <;> omega
  · intro buf u hgt
    unfold logLineFold
    have hb : (buf ++ (colorLog u).data ++ ['\n']).length
        = buf.length + logAppendLen u := by
      simp [logAppendLen, List.length_append, string_data_length]
    simp only []
    rw [hb, if_pos hgt]

/-- C4 witness: the bound evaluated on a concrete short log history. -/
theorem claim_C4_witness :
    (∀ l ∈ (["llama server listening", "warn: model is large"] : List String),
      logAppendLen l ≤ 2 * logBufferSoftLimitCharacters) ∧
    ((runLogBuffer (["llama server listening", "warn: model is large"] ++
        ["loaded model"])).length
        ≤ logBufferSoftLimitCharacters + logAppendLen "loaded model" ∧
     (∀ (buf : List Char) (u : String),
        logBufferSoftLimitCharacters < buf.length + logAppendLen u →
        logLineFold buf u =
          (buf ++ (colorLog u).data ++ ['\n']).drop
            ((buf.length + logAppendLen u) / 2))) :=
  ⟨by decide,
   claim_C4_soft_cap_overshoot ["llama server listening", "warn: model is large"]
     "loaded model" (by decide)⟩

/-- `validatePort` accepts exactly the non-empty strings that `strconv.Atoi`
parses to a value between 1 and 65535. -/
theorem validatePort_ok_iff (s : String) (hs : s ≠ "") (n : Int) :
    validatePort s = Except.ok n ↔
      (goAtoi s = some n ∧ 1 ≤ n ∧ n ≤ 65535) := by
  unfold validatePort
  rw [if_neg hs]
  cases h : goAtoi s with
  | none =>
    constructor
    · intro hc; cases hc
    · rintro ⟨hc, -, -⟩; cases hc
  | some v =>
    constructor
    · intro hc
      split at hc
      · cases hc
      · next w hw =>
        injection hw with hw
        subst hw
        split at hc
        · cases hc
        · next hcond =>
          injection hc with hc
          subst hc
          simp only [Bool.or_eq_true, decide_eq_true_eq, not_or] at hcond
          exact ⟨rfl, by omega, by omega⟩
    · rintro ⟨hvn, h1, h2⟩
      injection hvn with hvn
      subst hvn
      split
      · next hw => cases hw
      · next w hw =>
        injection hw with hw
        subst hw
        split
        · next hcond =>
          simp only [Bool.or_eq_true, decide_eq_true_eq] at hcond
          exfalso
          rcases hcond with hc | hc <;> omega
        · rfl

/-- The defaulted port string is never empty. -/
theorem defaultedPort_ne_empty (m : AppModel) : defaultedPort m ≠ "" := by
  unfold defaultedPort
  by_cases h : goTrimSpace m.portInputValue = ""
  · rw [if_pos h]
    decide
  · rw [if_neg h]
    exact h

/-- A start request whose defaulted port fails validation only writes the
status line and produces no command. -/
theorem handleKeyEnter_rejects (m : AppModel) (item : ModelItem) (e : String)
    (hr : m.serverRunning = false) (hs : m.serverStopping = false)
    (hi : m.selectedModel = some item)
    (hv : validatePort (defaultedPort m) = Except.error e) :
    handleKeyEnter m = ({ m with statusLineText := "Invalid port: " ++ e }, none) := by
  unfold handleKeyEnter
  simp [hr, hs, hi, defaultedPort] at hv ⊢
  rw [hv]

/-- A start request whose defaulted port validates to `v` issues the start
command with the `strconv.Itoa`-normalized port. -/
theorem handleKeyEnter_accepts (m : AppModel) (item : ModelItem) (v : Int)
    (hr : m.serverRunning = false) (hs : m.serverStopping = false)
    (hi : m.selectedModel = some item)
    (hv : validatePort (defaultedPort m) = Except.ok v) :
    (handleKeyEnter m).2 = some (TeaCmd.startServer item (goItoa v)) := by
  unfold handleKeyEnter
  simp [hr, hs, hi, defaultedPort] at hv ⊢
  rw [hv]

/-- C10: a start request trims the port input and defaults it to `"8080"`
when empty; the request then spawns the server iff that string parses
(`strconv.Atoi`) to an integer between 1 and 65535, and the port handed to
the process is the canonical decimal rendering (`strconv.Itoa`) of the
parsed value; otherwise the request is rejected before any resolution or
spawn command is produced, and the only session field written is the
status-line text. -/
theorem claim_C10_port_validated_and_normalized (m : AppModel) (item : ModelItem)
    (hr : m.serverRunning = false) (hs : m.serverStopping = false)
    (hi : m.selectedModel = some item) :
    (∀ n : Int, goAtoi (defaultedPort m) = some n → 1 ≤ n → n ≤ 65535 →
      (handleKeyEnter m).2 = some (TeaCmd.startServer item (goItoa n))) ∧
    ((¬ ∃ n : Int, goAtoi (defaultedPort m) = some n ∧ 1 ≤ n ∧ n ≤ 65535) →
      (handleKeyEnter m).2 = none ∧
      (handleKeyEnter m).1 =
        { m with statusLineText := (handleKeyEnter m).1.statusLineText }) ∧
    ((handleKeyEnter m).2 ≠ none ↔
      ∃ n : Int, goAtoi (defaultedPort m) = some n ∧ 1 ≤ n ∧ n ≤ 65535) := by
  cases hv : validatePort (defaultedPort m) with
  | error e =>
    have hres := handleKeyEnter_rejects m item e hr hs hi hv
    have hno : ¬ ∃ n : Int, goAtoi (defaultedPort m) = some n ∧ 1 ≤ n ∧ n ≤ 65535 := by
      rintro ⟨n, hn, h1, h2⟩
      have hok := (validatePort_ok_iff (defaultedPort m)
        (defaultedPort_ne_empty m) n).mpr ⟨hn, h1, h2⟩
      rw [hv] at hok
      cases hok
    refine ⟨?_, ?_, ?_⟩
    · intro n hn h1 h2
      exact absurd ⟨n, hn, h1, h2⟩ hno
    · intro _
      rw [hres]
      exact ⟨rfl, rfl⟩
    · rw [hres]
      constructor
      · intro hc
        exact absurd rfl hc
      · intro hex
        exact absurd hex hno
  | ok v =>
    have hgo := (validatePort_ok_iff (defaultedPort m)
      (defaultedPort_ne_empty m) v).mp hv
    have hcmd := handleKeyEnter_accepts m item v hr hs hi hv
    refine ⟨?_, ?_, ?_⟩
    · intro n hn _ _
      rw [hgo.1] at hn
      injection hn with hn
      rw [← hn]
      exact hcmd
    · intro hno
      exact absurd ⟨v, hgo.1, hgo.2.1, hgo.2.2⟩ hno
    · rw [hcmd]
      constructor
      · intro _
        exact ⟨v, hgo.1, hgo.2.1, hgo.2.2⟩
      · intro _ hc
        cases hc

/-- A fresh session with a selected model and a padded, zero-prefixed port
input, for the C10 witness. -/
def startRequestModel : AppModel :=
  { initialModel "/home/user" with
    selectedModel := some { name := "m.gguf", path := "/home/user/.llamabarn/m.gguf" },
    portInputValue := " 08080 " }

/-- C10 witness: on the concrete input `" 08080 "` the request is accepted
and the spawned command carries the normalized port `"8080"`. -/
theorem claim_C10_witness :
    startRequestModel.serverRunning = false ∧
    startRequestModel.serverStopping = false ∧
    startRequestModel.selectedModel =
      some { name := "m.gguf", path := "/home/user/.llamabarn/m.gguf" } ∧
    goAtoi (defaultedPort startRequestModel) = some 8080 ∧
    (handleKeyEnter startRequestModel).2 =
      some (TeaCmd.startServer
        { name := "m.gguf", path := "/home/user/.llamabarn/m.gguf" } (goItoa 8080)) :=
  ⟨rfl, rfl, rfl, by decide,
   (claim_C10_port_validated_and_normalized startRequestModel
      { name := "m.gguf", path := "/home/user/.llamabarn/m.gguf" }
      rfl rfl rfl).1 8080 (by decide) (by decide) (by decide)⟩

end LlamaTui
